import Mathlib

/-!
# Verification of the AcousticBEM boundary-data layer (`src/Python/BoundaryData.py`)

This file gives a shallow embedding of the data model and derived-quantity
computations of `BoundaryData.py`: the containers `BoundaryCondition` and
`BoundaryIncidence`, and the post-processing methods of `BoundarySolution`
(`pressure`, `radiationRatio`, `mechanicalImpedance`), together with the
attribute-access behaviour of the `__init__`/`__repr__` pairs.

Modelling conventions:
* The Python code computes with `numpy.complex64` scalars.  We model complex
  numbers exactly, as pairs of rationals (`Cx`); this keeps every arithmetic
  identity of the source exact and decidable.  Floating-point *rounding* is
  abstracted away; what is kept faithfully is the distinction between a
  finite returned value, a non-finite returned value (NaN/Inf — what float
  division by an exactly-zero divisor always produces, with a
  `RuntimeWarning` at most, never an exception) and a raised Python
  exception.  `FloatOutcome` separates the three.
* Non-finiteness is absorbing under the additions performed by the
  accumulation loops of the source (`nan + x = nan`, `inf + inf = inf`,
  `inf - inf = nan`), which is why `FloatOutcome.nonFinite` propagates
  through the folds below.
* The functions the source imports from `AcousticProperties` are not among
  the source files at hand; they are modelled from the spec and flagged as
  such in their doc comments.
-/

/-- A complex number with exact rational components, modelling the
`numpy.complex64` scalars of the source with exact arithmetic. -/
@[ext] structure Cx where
  re : ℚ
  im : ℚ
deriving DecidableEq, Repr

namespace Cx

instance instZero : Zero Cx := ⟨⟨0, 0⟩⟩

instance instOne : One Cx := ⟨⟨1, 0⟩⟩

instance instAdd : Add Cx := ⟨fun z w => ⟨z.re + w.re, z.im + w.im⟩⟩

instance instNeg : Neg Cx := ⟨fun z => ⟨-z.re, -z.im⟩⟩

instance instMul : Mul Cx :=
  ⟨fun z w => ⟨z.re * w.re - z.im * w.im, z.re * w.im + z.im * w.re⟩⟩

instance instCommRing : CommRing Cx where
  add_assoc a b c := by
    refine Cx.ext ?_ ?_
    · show a.re + b.re + c.re = a.re + (b.re + c.re); ring
    · show a.im + b.im + c.im = a.im + (b.im + c.im); ring
  zero_add a := by
    refine Cx.ext ?_ ?_
    · show 0 + a.re = a.re; ring
    · show 0 + a.im = a.im; ring
  add_zero a := by
    refine Cx.ext ?_ ?_
    · show a.re + 0 = a.re; ring
    · show a.im + 0 = a.im; ring
  add_comm a b := by
    refine Cx.ext ?_ ?_
    · show a.re + b.re = b.re + a.re; ring
    · show a.im + b.im = b.im + a.im; ring
  mul_assoc a b c := by
    refine Cx.ext ?_ ?_
    · show (a.re * b.re - a.im * b.im) * c.re - (a.re * b.im + a.im * b.re) * c.im
        = a.re * (b.re * c.re - b.im * c.im) - a.im * (b.re * c.im + b.im * c.re)
      ring
    · show (a.re * b.re - a.im * b.im) * c.im + (a.re * b.im + a.im * b.re) * c.re
        = a.re * (b.re * c.im + b.im * c.re) + a.im * (b.re * c.re - b.im * c.im)
      ring
  one_mul a := by
    refine Cx.ext ?_ ?_
    · show 1 * a.re - 0 * a.im = a.re; ring
    · show 1 * a.im + 0 * a.re = a.im; ring
  mul_one a := by
    refine Cx.ext ?_ ?_
    · show a.re * 1 - a.im * 0 = a.re; ring
    · show a.re * 0 + a.im * 1 = a.im; ring
  left_distrib a b c := by
    refine Cx.ext ?_ ?_
    · show a.re * (b.re + c.re) - a.im * (b.im + c.im)
        = (a.re * b.re - a.im * b.im) + (a.re * c.re - a.im * c.im)
      ring
    · show a.re * (b.im + c.im) + a.im * (b.re + c.re)
        = (a.re * b.im + a.im * b.re) + (a.re * c.im + a.im * c.re)
      ring
  right_distrib a b c := by
    refine Cx.ext ?_ ?_
    · show (a.re + b.re) * c.re - (a.im + b.im) * c.im
        = (a.re * c.re - a.im * c.im) + (b.re * c.re - b.im * c.im)
      ring
    · show (a.re + b.re) * c.im + (a.im + b.im) * c.re
        = (a.re * c.im + a.im * c.re) + (b.re * c.im + b.im * c.re)
      ring
  mul_comm a b := by
    refine Cx.ext ?_ ?_
    · show a.re * b.re - a.im * b.im = b.re * a.re - b.im * a.im; ring
    · show a.re * b.im + a.im * b.re = b.re * a.im + b.im * a.re; ring
  zero_mul a := by
    refine Cx.ext ?_ ?_
    · show 0 * a.re - 0 * a.im = 0; ring
    · show 0 * a.im + 0 * a.re = 0; ring
  mul_zero a := by
    refine Cx.ext ?_ ?_
    · show a.re * 0 - a.im * 0 = 0; ring
    · show a.re * 0 + a.im * 0 = 0; ring
  neg_add_cancel a := by
    refine Cx.ext ?_ ?_
    · show -a.re + a.re = 0; ring
    · show -a.im + a.im = 0; ring
  nsmul := nsmulRec
  zsmul := zsmulRec

/-- The imaginary unit. -/
def I : Cx := ⟨0, 1⟩

/-- Embedding of a real (float) scalar into the complex numbers, as Python
performs implicitly when it multiplies a complex by a float. -/
def ofRat (q : ℚ) : Cx := ⟨q, 0⟩

/-- Complex conjugation, `numpy.conj`. -/
def conj (z : Cx) : Cx := ⟨z.re, -z.im⟩

/-- The squared modulus `|z|^2 = re^2 + im^2`, modelling `np.abs(z)**2`
exactly. -/
def normSq (z : Cx) : ℚ := z.re * z.re + z.im * z.im

/-- Complex inverse `z⁻¹ = conj z / |z|^2` (numpy computes complex division
through exactly this rational function).  The value at `0` is junk; the
embedding routes every division by an exactly-zero divisor through
`FloatOutcome.nonFinite` instead of using it. -/
instance instInv : Inv Cx := ⟨fun z => ⟨z.re / normSq z, -z.im / normSq z⟩⟩

instance instDiv : Div Cx := ⟨fun z w => z * w⁻¹⟩

end Cx

/-- The observable outcome of one of the source's float computations: a
finite value, a silently returned non-finite value (NaN or Inf), or a
raised Python exception (carrying the exception's name). -/
inductive FloatOutcome (α : Type) where
  | val : α → FloatOutcome α
  | nonFinite : FloatOutcome α
  | error : String → FloatOutcome α
deriving DecidableEq, Repr

/-- Behaviour of `np.empty(size, dtype=np.complex64)`: a negative `size`
raises `ValueError`, otherwise an array of length `size` with unspecified
contents is returned.  Only the length of the result is ever relied upon by
the claims; the unspecified contents are modelled as zeros. -/
def npEmpty (size : ℤ) : Except String (List Cx) :=
  if size < 0 then Except.error "ValueError: negative dimensions are not allowed"
  else Except.ok (List.replicate size.toNat 0)

/-- The `BoundaryCondition` container: per-element Robin boundary-condition
coefficients `alpha`, `beta`, `f`. -/
structure BoundaryCondition where
  alpha : List Cx
  beta : List Cx
  f : List Cx
deriving DecidableEq, Repr

/-- `BoundaryCondition.__init__(self, size)`: three `np.empty(size)`
allocations. -/
def BoundaryCondition.init (size : ℤ) : Except String BoundaryCondition := do
  let alpha ← npEmpty size
  let beta ← npEmpty size
  let f ← npEmpty size
  Except.ok { alpha := alpha, beta := beta, f := f }

/-- The `BoundaryIncidence` container: per-element incident potential `phi`
and incident normal velocity `v`. -/
structure BoundaryIncidence where
  phi : List Cx
  v : List Cx
deriving DecidableEq, Repr

/-- `BoundaryIncidence.__init__(self, size)`: two `np.empty(size)`
allocations. -/
def BoundaryIncidence.init (size : ℤ) : Except String BoundaryIncidence := do
  let phi ← npEmpty size
  let v ← npEmpty size
  Except.ok { phi := phi, v := v }

/-- The capabilities a `BoundarySolution` reads from its parent solver (an
external collaborator): the medium density `ρ`, the speed of sound `c`, and
the per-element surface areas returned by `parent.elementArea()`. -/
structure Solver where
  density : ℚ
  c : ℚ
  elementArea : List ℚ
deriving DecidableEq, Repr

/-- The `BoundarySolution` record as `__init__` stores it.  The second field
keeps the source's misspelt attribute name `boundaryCondidtion` (the
constructor writes `self.boundaryCondidtion = boundaryCondition`). -/
structure BoundarySolution where
  parent : Solver
  boundaryCondidtion : BoundaryCondition
  k : ℚ
  aPhi : List Cx
  aV : List Cx
deriving DecidableEq, Repr

/-- Modelled from the spec: `soundPressure(k, phi, c, density)` of the
`AcousticProperties` module (imported by the source but not among the files
at hand) computes the acoustic pressure from the velocity potential via the
relation `p = i·ρ·c·k·φ`. -/
def soundPressure (k : ℚ) (phi : Cx) (c density : ℚ) : Cx :=
  Cx.I * Cx.ofRat density * Cx.ofRat c * Cx.ofRat k * phi

/-- Modelled from the spec: `AcousticIntensity(p, v)` of the
`AcousticProperties` module (imported by the source but not among the files
at hand) is the time-averaged acoustic intensity `0.5 * Re(p · conj(v))`. -/
def AcousticIntensity (p v : Cx) : ℚ := 1 / 2 * (p * Cx.conj v).re

/-- `BoundarySolution.pressure`: `soundPressure(self.k, self.aPhi, c=...,
density=...)`; numpy broadcasts the scalar relation over the array, i.e.
applies it elementwise. -/
def BoundarySolution.pressure (s : BoundarySolution) : List Cx :=
  s.aPhi.map fun phi => soundPressure s.k phi s.parent.c s.parent.density

/-- The `power` accumulator of `radiationRatio`: the loop `for i in
range(self.aPhi.size)` adds `AcousticIntensity(pressure_i, self.aV[i])` at
each step.  Out-of-range indices read the default `0`; `radiationRatio`
consults the accumulators only when `len(aV) ≥ len(aPhi)`, so every index
used is in range. -/
def BoundarySolution.rrPower (s : BoundarySolution) : ℚ :=
  (List.range s.aPhi.length).foldl
    (fun power i =>
      power + AcousticIntensity
        (soundPressure s.k (s.aPhi.getD i 0) s.parent.c s.parent.density)
        (s.aV.getD i 0))
    0

/-- The `bpower` accumulator of `radiationRatio`: the same loop adds
`self.parent.density * self.parent.c * np.abs(self.aV[i])**2` at each
step (`np.abs(v)**2` is the squared modulus, modelled exactly by
`Cx.normSq`). -/
def BoundarySolution.rrBpower (s : BoundarySolution) : ℚ :=
  (List.range s.aPhi.length).foldl
    (fun bpower i => bpower + s.parent.density * s.parent.c * Cx.normSq (s.aV.getD i 0))
    0

/-- `BoundarySolution.radiationRatio`: runs the accumulation loop and
returns `2 * power / bpower`.  The loop indexes `self.aV[i]` for every
`i < len(aPhi)`, so it raises `IndexError` exactly when `len(aV) <
len(aPhi)`.  When the loop runs zero iterations (`aPhi` empty) the
accumulators are still the pure-Python floats `0.0` they were initialized
to, and `2 * power / bpower` is Python `0.0 / 0.0`, which raises
`ZeroDivisionError`.  Once at least one iteration has run, the `+=` steps
have promoted both accumulators to numpy scalars, and a `bpower` of exactly
zero makes the final division yield NaN or Inf (with a `RuntimeWarning`
only), silently returned. -/
def BoundarySolution.radiationRatio (s : BoundarySolution) : FloatOutcome ℚ :=
  if s.aV.length < s.aPhi.length then FloatOutcome.error "IndexError"
  else if s.aPhi.length = 0 then FloatOutcome.error "ZeroDivisionError"
  else if s.rrBpower = 0 then FloatOutcome.nonFinite
  else FloatOutcome.val (2 * s.rrPower / s.rrBpower)

/-- The list `zip(self.pressure(), self.parent.elementArea(), self.aV)`
iterated by `mechanicalImpedance`; Python's `zip` silently truncates to the
shortest of the three sequences. -/
def BoundarySolution.miTriples (s : BoundarySolution) : List ((Cx × ℚ) × Cx) :=
  (s.pressure.zip s.parent.elementArea).zip s.aV

/-- One step `Zm += p * a / v` of the `mechanicalImpedance` loop.  Dividing
by an exactly-zero `v` yields a non-finite float (never an exception), and
non-finiteness is absorbing under the subsequent additions. -/
def miStep (acc : FloatOutcome Cx) (pav : (Cx × ℚ) × Cx) : FloatOutcome Cx :=
  match acc with
  | FloatOutcome.val z =>
      if pav.2 = 0 then FloatOutcome.nonFinite
      else FloatOutcome.val (z + pav.1.1 * Cx.ofRat pav.1.2 / pav.2)
  | other => other

/-- `BoundarySolution.mechanicalImpedance`: `Zm = 0.0`, then `Zm += p * a / v`
over the zipped triples, returning `Zm`. -/
def BoundarySolution.mechanicalImpedance (s : BoundarySolution) : FloatOutcome Cx :=
  s.miTriples.foldl miStep (FloatOutcome.val 0)

/-- The attribute names `BoundarySolution.__init__` assigns on `self` (note
the misspelling `boundaryCondidtion` in the source). -/
def boundarySolutionInitAttrs : List String :=
  ["parent", "boundaryCondidtion", "k", "aPhi", "aV"]

/-- The attribute names `BoundarySolution.__repr__` reads from `self`. -/
def boundarySolutionReprReads : List String :=
  ["parent", "boundaryCondition", "k", "aPhi", "aV"]

/-- The attribute names `SampleSolution.__init__` assigns on `self`. -/
def sampleSolutionInitAttrs : List String :=
  ["boundarySolution", "aPhi"]

/-- The attribute names `SampleSolution.__repr__` reads from `self`. -/
def sampleSolutionReprReads : List String :=
  ["parent", "aPhi"]

/-- Python attribute lookup on an instance whose attributes are exactly the
ones `__init__` assigned: reading any name outside that set raises
`AttributeError`.  A `__repr__` body that reads the listed names raises iff
one of them was never assigned. -/
def reprRaisesAttributeError (initAttrs reads : List String) : Bool :=
  reads.any fun a => !(initAttrs.contains a)

/-- A trivially valid boundary condition record, used as the stored
`boundaryCondidtion` field of the concrete solutions below (none of the
derived-quantity methods reads it). -/
def trivialBC : BoundaryCondition := { alpha := [], beta := [], f := [] }

/-- The end-to-end scenario of the spec, §8: `N=2`, `k=1.0`, `c=343.0`,
`density=1.21`, `aPhi=[1+0i, 0+1i]`, `aV=[1+0i, 1+0i]`. -/
def endToEndSolution : BoundarySolution :=
  { parent := { density := 121/100, c := 343, elementArea := [1, 1] }
    boundaryCondidtion := trivialBC
    k := 1
    aPhi := [⟨1, 0⟩, ⟨0, 1⟩]
    aV := [⟨1, 0⟩, ⟨1, 0⟩] }

/-- A single-element solution whose only velocity is exactly zero
(`aV[0] == 0`), the degenerate input of claim C1. -/
def solZeroVel : BoundarySolution :=
  { parent := { density := 121/100, c := 343, elementArea := [1] }
    boundaryCondidtion := trivialBC
    k := 1
    aPhi := [⟨1, 0⟩]
    aV := [⟨0, 0⟩] }

/-- A solution with mismatched lengths: two potentials but a single area and
a single velocity (claim C2). -/
def solMismatch : BoundarySolution :=
  { parent := { density := 1, c := 1, elementArea := [1] }
    boundaryCondidtion := trivialBC
    k := 1
    aPhi := [⟨1, 0⟩, ⟨2, 0⟩]
    aV := [⟨1, 0⟩] }

/-- `solMismatch` with its trailing potential removed: all three sequences
have length one. -/
def solMismatchTruncated : BoundarySolution :=
  { parent := { density := 1, c := 1, elementArea := [1] }
    boundaryCondidtion := trivialBC
    k := 1
    aPhi := [⟨1, 0⟩]
    aV := [⟨1, 0⟩] }

/-- A two-element solution whose velocities are all zero, the degenerate
input of claim C3. -/
def solAllZeroV : BoundarySolution :=
  { parent := { density := 121/100, c := 343, elementArea := [1, 1] }
    boundaryCondidtion := trivialBC
    k := 1
    aPhi := [⟨1, 0⟩, ⟨0, 1⟩]
    aV := [⟨0, 0⟩, ⟨0, 0⟩] }

/-- The solution with every potential multiplied by the complex scalar `z`
(the transformation of claim C6). -/
def BoundarySolution.scalePhi (s : BoundarySolution) (z : Cx) : BoundarySolution :=
  { s with aPhi := s.aPhi.map fun phi => z * phi }

/-- The solution with every potential replaced by zero. -/
def BoundarySolution.zeroPhi (s : BoundarySolution) : BoundarySolution :=
  { s with aPhi := List.replicate s.aPhi.length 0 }

/-- The solution with both `aPhi` and `aV` multiplied elementwise by the
complex scalar `z` (the transformation of claim C7, with `z = 2`). -/
def BoundarySolution.scaleBoth (s : BoundarySolution) (z : Cx) : BoundarySolution :=
  { s with
    aPhi := s.aPhi.map fun phi => z * phi
    aV := s.aV.map fun v => z * v }

/-- The solution with `aPhi`, `elementArea` and `aV` all truncated to the
length of the shortest of the three (the prefix `mechanicalImpedance`
actually consumes). -/
def BoundarySolution.truncateMin (s : BoundarySolution) : BoundarySolution :=
  let n := min (min s.aPhi.length s.parent.elementArea.length) s.aV.length
  { s with
    parent := { s.parent with elementArea := s.parent.elementArea.take n }
    aPhi := s.aPhi.take n
    aV := s.aV.take n }

/-- A well-conditioned one-element solution (nonzero velocity), used as the
concrete witness input for several claims. -/
def solUnit : BoundarySolution :=
  { parent := { density := 1, c := 1, elementArea := [1] }
    boundaryCondidtion := trivialBC
    k := 1
    aPhi := [⟨1, 0⟩]
    aV := [⟨1, 0⟩] }

/-! ## Component lemmas for `Cx` -/

namespace Cx

@[simp] theorem zero_re : (0 : Cx).re = 0 := rfl

@[simp] theorem zero_im : (0 : Cx).im = 0 := rfl

@[simp] theorem one_re : (1 : Cx).re = 1 := rfl

@[simp] theorem one_im : (1 : Cx).im = 0 := rfl

@[simp] theorem add_re (z w : Cx) : (z + w).re = z.re + w.re := rfl

@[simp] theorem add_im (z w : Cx) : (z + w).im = z.im + w.im := rfl

@[simp] theorem neg_re (z : Cx) : (-z).re = -z.re := rfl

@[simp] theorem neg_im (z : Cx) : (-z).im = -z.im := rfl

@[simp] theorem mul_re (z w : Cx) : (z * w).re = z.re * w.re - z.im * w.im := rfl

@[simp] theorem mul_im (z w : Cx) : (z * w).im = z.re * w.im + z.im * w.re := rfl

@[simp] theorem I_re : I.re = 0 := rfl

@[simp] theorem I_im : I.im = 1 := rfl

@[simp] theorem ofRat_re (q : ℚ) : (ofRat q).re = q := rfl

@[simp] theorem ofRat_im (q : ℚ) : (ofRat q).im = 0 := rfl

@[simp] theorem conj_re (z : Cx) : (conj z).re = z.re := rfl

@[simp] theorem conj_im (z : Cx) : (conj z).im = -z.im := rfl

theorem ofRat_one : ofRat 1 = 1 := rfl

theorem zero_def : (0 : Cx) = ⟨0, 0⟩ := rfl

theorem one_def : (1 : Cx) = ⟨1, 0⟩ := rfl

theorem mk_mul_mk (a b c d : ℚ) :
    (⟨a, b⟩ : Cx) * ⟨c, d⟩ = ⟨a * c - b * d, a * d + b * c⟩ := rfl

theorem mk_add_mk (a b c d : ℚ) : (⟨a, b⟩ : Cx) + ⟨c, d⟩ = ⟨a + c, b + d⟩ := rfl

theorem inv_mk (a b : ℚ) :
    (⟨a, b⟩ : Cx)⁻¹ = ⟨a / (a * a + b * b), -b / (a * a + b * b)⟩ := rfl

theorem div_def (z w : Cx) : z / w = z * w⁻¹ := rfl

end Cx

/-! ## General helper lemmas -/

/-- An index-ascending `+=` accumulation is the starting value plus the list
sum of the summands. -/
theorem foldl_add_eq_sum (g : ℕ → ℚ) (l : List ℕ) (a : ℚ) :
    l.foldl (fun acc i => acc + g i) a = a + (l.map g).sum := by
  induction l generalizing a with
  | nil => simp
  | cons x xs ih => simp [ih, add_assoc]

/-- Reading a mapped list with a default of `0` commutes with a scalar
multiple, because `z * 0 = 0` covers the out-of-range default. -/
theorem getD_map_mul (z : Cx) (l : List Cx) (i : ℕ) :
    (l.map fun w => z * w).getD i 0 = z * l.getD i 0 := by
  rcases lt_or_ge i l.length with h | h
  · rw [List.getD_eq_getElem _ _ (by simpa using h), List.getD_eq_getElem _ _ h,
      List.getElem_map]
  · rw [List.getD_eq_default _ _ (by simpa using h), List.getD_eq_default _ _ h, mul_zero]

/-- Zipping two prefixes of the same length bound is a prefix of the zip. -/
theorem zip_take_take {α β : Type} (l₁ : List α) (l₂ : List β) (n : ℕ) :
    (l₁.take n).zip (l₂.take n) = (l₁.zip l₂).take n := by
  induction l₁ generalizing l₂ n with
  | nil => simp
  | cons a l₁ ih =>
    cases l₂ with
    | nil => simp
    | cons b l₂ =>
      cases n with
      | zero => rfl
      | succ n => simp [ih]

/-- The spec-modelled pressure relation written out in components:
`i·ρ·c·k·(a+bi) = -ρck·b + ρck·a·i`. -/
theorem soundPressure_eq (k : ℚ) (phi : Cx) (c density : ℚ) :
    soundPressure k phi c density
      = ⟨-(density * c * k * phi.im), density * c * k * phi.re⟩ := by
  unfold soundPressure
  refine Cx.ext ?_ ?_ <;> simp [Cx.I, Cx.ofRat]

/-- The pressure relation maps a zero potential to zero pressure. -/
theorem soundPressure_zero (k c density : ℚ) : soundPressure k 0 c density = 0 := by
  unfold soundPressure; ring

/-- The pressure relation is linear in the potential. -/
theorem soundPressure_smul (k c density : ℚ) (z phi : Cx) :
    soundPressure k (z * phi) c density = z * soundPressure k phi c density := by
  unfold soundPressure; ring

/-- Once the accumulator is non-finite it stays non-finite. -/
theorem foldl_miStep_nonFinite (l : List ((Cx × ℚ) × Cx)) :
    l.foldl miStep FloatOutcome.nonFinite = FloatOutcome.nonFinite := by
  induction l with
  | nil => rfl
  | cons pav l ih => exact ih

/-- If any zipped triple carries an exactly-zero velocity, the
`Zm += p * a / v` loop ends non-finite, whatever finite value it has
accumulated so far. -/
theorem foldl_miStep_of_zero_vel (l : List ((Cx × ℚ) × Cx)) (z : Cx)
    (h : ∃ pav ∈ l, pav.2 = 0) :
    l.foldl miStep (FloatOutcome.val z) = FloatOutcome.nonFinite := by
  induction l generalizing z with
  | nil => simp at h
  | cons pav l ih =>
    rcases h with ⟨q, hq, hq0⟩
    rcases List.mem_cons.mp hq with rfl | hmem
    · show (l.foldl miStep (miStep (FloatOutcome.val z) q)) = FloatOutcome.nonFinite
      rw [show miStep (FloatOutcome.val z) q = FloatOutcome.nonFinite by
        simp [miStep, hq0]]
      exact foldl_miStep_nonFinite l
    · show (l.foldl miStep (miStep (FloatOutcome.val z) pav)) = FloatOutcome.nonFinite
      by_cases hz : pav.2 = 0
      · rw [show miStep (FloatOutcome.val z) pav = FloatOutcome.nonFinite by
          simp [miStep, hz]]
        exact foldl_miStep_nonFinite l
      · rw [show miStep (FloatOutcome.val z) pav
            = FloatOutcome.val (z + pav.1.1 * Cx.ofRat pav.1.2 / pav.2) by
          simp [miStep, hz]]
        exact ih _ ⟨q, hmem, hq0⟩

/-! ## Claim C1 — `mechanicalImpedance` on a zero-velocity element -/

/-- C1, counterexample: on the concrete single-element solution whose only
velocity is exactly zero, `mechanicalImpedance()` does not fail with a
`DegenerateDivision` error — it silently returns the non-finite float value
produced by the division by zero.  The claimed error outcome
`FloatOutcome.error _` does not occur. -/
theorem mechanicalImpedance_zeroVel_counterexample :
    BoundarySolution.mechanicalImpedance solZeroVel = FloatOutcome.nonFinite := by
  decide

/-- C1, amended: for every `BoundarySolution`, if any triple that the
`zip(pressure, elementArea, aV)` loop iterates carries an exactly-zero
velocity, then `mechanicalImpedance()` returns a non-finite value (NaN/Inf)
silently; it raises nothing. -/
theorem mechanicalImpedance_zeroVel_nonFinite (s : BoundarySolution)
    (h : ∃ pav ∈ s.miTriples, pav.2 = 0) :
    s.mechanicalImpedance = FloatOutcome.nonFinite := by
  unfold BoundarySolution.mechanicalImpedance
  exact foldl_miStep_of_zero_vel s.miTriples 0 h

/-- C1, witness: the amended theorem applied to the concrete zero-velocity
solution. -/
theorem mechanicalImpedance_zeroVel_nonFinite_witness :
    BoundarySolution.mechanicalImpedance solZeroVel = FloatOutcome.nonFinite :=
  mechanicalImpedance_zeroVel_nonFinite solZeroVel (by decide)

/-! ## Claim C2 — length mismatches are silently truncated -/

/-- C2, counterexample: `solMismatch` carries two potentials but one area
and one velocity.  Nothing fails at construction or in
`mechanicalImpedance()`: the trailing potential is silently dropped and the
result is the same finite value that the honestly one-element solution
produces. -/
theorem mechanicalImpedance_mismatch_counterexample :
    BoundarySolution.mechanicalImpedance solMismatch = FloatOutcome.val ⟨0, 1⟩ ∧
    BoundarySolution.mechanicalImpedance solMismatchTruncated = FloatOutcome.val ⟨0, 1⟩ := by
  constructor <;>
    norm_num [BoundarySolution.mechanicalImpedance, BoundarySolution.miTriples,
      BoundarySolution.pressure, solMismatch, solMismatchTruncated, miStep,
      soundPressure, Cx.I, Cx.ofRat, List.zip, Cx.mk.injEq, Cx.zero_def,
      Cx.div_def, Cx.inv_mk, Cx.mk_mul_mk, Cx.mk_add_mk, Cx.ext_iff]

/-- C2, amended: `BoundarySolution` construction performs no length
validation, and `mechanicalImpedance()` consumes exactly the common prefix
of `pressure`, `elementArea` and `aV` (Python `zip` semantics): truncating
all three sequences to the length of the shortest changes nothing. -/
theorem mechanicalImpedance_truncateMin (s : BoundarySolution) :
    s.truncateMin.mechanicalImpedance = s.mechanicalImpedance := by
  have htriples : s.truncateMin.miTriples = s.miTriples := by
    unfold BoundarySolution.truncateMin BoundarySolution.miTriples
      BoundarySolution.pressure
    dsimp only
    rw [List.map_take, zip_take_take, zip_take_take, List.take_of_length_le]
    simp [List.length_zip]
  unfold BoundarySolution.mechanicalImpedance
  rw [htriples]

/-! ## Claim C3 — `radiationRatio` with all velocities zero -/

/-- C3, counterexample: on the concrete two-element solution with all
velocities zero, `radiationRatio()` does not fail with a
`DegenerateDivision` error — it silently returns the non-finite float value
of the `0/0` division (the blocked-power denominator is exactly zero). -/
theorem radiationRatio_allZeroVel_counterexample :
    BoundarySolution.radiationRatio solAllZeroV = FloatOutcome.nonFinite := by
  have hb : solAllZeroV.rrBpower = 0 := by
    norm_num [BoundarySolution.rrBpower, solAllZeroV, Cx.normSq,
      List.range_succ, List.getD]
  unfold BoundarySolution.radiationRatio
  rw [if_neg (by norm_num [solAllZeroV]), if_neg (by norm_num [solAllZeroV]),
    if_pos hb]

/-- C3, amended: for every `BoundarySolution` with at least one element,
whose `aV` is at least as long as `aPhi` (so the loop raises no
`IndexError`) and whose velocities are all zero, the blocked-power
denominator is exactly zero and `radiationRatio()` silently returns the
non-finite result of the numpy division by zero; it does not raise a
`DegenerateDivision` (or any other) error.  (An *empty* solution instead
raises `ZeroDivisionError` from the pure-Python `0.0 / 0.0`, which is why
the nonempty hypothesis is needed.) -/
theorem radiationRatio_allZeroVel_nonFinite (s : BoundarySolution)
    (hne : s.aPhi ≠ []) (hlen : s.aPhi.length ≤ s.aV.length)
    (hz : ∀ v ∈ s.aV, v = 0) :
    s.radiationRatio = FloatOutcome.nonFinite := by
  have hb : s.rrBpower = 0 := by
    have hsum := foldl_add_eq_sum
      (fun i => s.parent.density * s.parent.c * Cx.normSq (s.aV.getD i 0))
      (List.range s.aPhi.length) 0
    unfold BoundarySolution.rrBpower
    rw [hsum, zero_add]
    apply List.sum_eq_zero
    intro x hx
    obtain ⟨i, hi, rfl⟩ := List.mem_map.mp hx
    have hilen : i < s.aV.length := lt_of_lt_of_le (List.mem_range.mp hi) hlen
    have hv0 : s.aV.getD i 0 = 0 := by
      rw [List.getD_eq_getElem _ _ hilen]
      exact hz _ (List.getElem_mem hilen)
    rw [hv0]
    norm_num [Cx.normSq]
  unfold BoundarySolution.radiationRatio
  rw [if_neg (by omega), if_neg (fun h => hne (List.length_eq_zero.mp h)), if_pos hb]

/-- C3, witness: the amended theorem applied to the concrete all-zero
velocity solution. -/
theorem radiationRatio_allZeroVel_nonFinite_witness :
    BoundarySolution.radiationRatio solAllZeroV = FloatOutcome.nonFinite :=
  radiationRatio_allZeroVel_nonFinite solAllZeroV (by decide) (by decide) (by decide)

/-! ## Claim C4 — the pressure formula and the end-to-end scenario -/

/-- C4: for every `BoundarySolution`, `pressure()` has the same length as
`aPhi` and its `i`-th entry is `i·ρ·c·k·aPhi[i]`; on the concrete
end-to-end scenario (`N=2`, `k=1`, `c=343`, `density=1.21`,
`aPhi=[1, i]`) it returns exactly `[415.03i, -415.03]`. -/
theorem pressure_formula_and_endToEnd :
    (∀ s : BoundarySolution, s.pressure.length = s.aPhi.length ∧
      ∀ i : Fin s.aPhi.length,
        s.pressure.getD i 0 =
          ⟨-(s.parent.density * s.parent.c * s.k * (s.aPhi.get i).im),
            s.parent.density * s.parent.c * s.k * (s.aPhi.get i).re⟩) ∧
    BoundarySolution.pressure endToEndSolution = [⟨0, 41503/100⟩, ⟨-(41503/100), 0⟩] := by
  constructor
  · intro s
    refine ⟨by simp [BoundarySolution.pressure], ?_⟩
    intro i
    have hi : (i : ℕ) < s.pressure.length := by
      rw [BoundarySolution.pressure, List.length_map]
      exact i.isLt
    rw [List.getD_eq_getElem _ _ hi]
    unfold BoundarySolution.pressure
    rw [List.getElem_map, soundPressure_eq]
    simp [List.get_eq_getElem]
  · norm_num [BoundarySolution.pressure, endToEndSolution, soundPressure, Cx.I,
      Cx.ofRat, Cx.mk_mul_mk, Cx.mk.injEq]

/-! ## Claim C5 — negative sizes are rejected, zero is accepted -/

/-- C5: constructing either container with a negative size fails (numpy
raises `ValueError: negative dimensions are not allowed`, the source's
realization of the spec's `InvalidSize`), while size `0` succeeds and
yields the empty container. -/
theorem boundaryContainers_reject_negative_size :
    (∀ n : ℤ, n < 0 →
      BoundaryCondition.init n
          = Except.error "ValueError: negative dimensions are not allowed" ∧
      BoundaryIncidence.init n
          = Except.error "ValueError: negative dimensions are not allowed") ∧
    BoundaryCondition.init 0 = Except.ok { alpha := [], beta := [], f := [] } ∧
    BoundaryIncidence.init 0 = Except.ok { phi := [], v := [] } := by
  refine ⟨fun n hn => ⟨?_, ?_⟩, ?_, ?_⟩
  · simp only [BoundaryCondition.init, npEmpty, if_pos hn]
    rfl
  · simp only [BoundaryIncidence.init, npEmpty, if_pos hn]
    rfl
  · simp only [BoundaryCondition.init, npEmpty]
    rfl
  · simp only [BoundaryIncidence.init, npEmpty]
    rfl

/-- C5, witness: size `-1` is rejected by both containers. -/
theorem boundaryContainers_reject_negative_size_witness :
    BoundaryCondition.init (-1)
        = Except.error "ValueError: negative dimensions are not allowed" ∧
    BoundaryIncidence.init (-1)
        = Except.error "ValueError: negative dimensions are not allowed" :=
  boundaryContainers_reject_negative_size.1 (-1) (by norm_num)

/-! ## Claim C6 — pressure is linear in the potential -/

/-- C6: scaling every potential by a complex factor `z` scales every entry
of `pressure()` by `z`, and a solution with all-zero potentials has an
all-zero pressure sequence. -/
theorem pressure_linear_in_potential :
    (∀ (s : BoundarySolution) (z : Cx),
        (s.scalePhi z).pressure = s.pressure.map fun p => z * p) ∧
    ∀ s : BoundarySolution, s.zeroPhi.pressure = List.replicate s.aPhi.length 0 := by
  constructor
  · intro s z
    unfold BoundarySolution.scalePhi BoundarySolution.pressure
    dsimp only
    rw [List.map_map, List.map_map]
    congr 1
    funext phi
    exact soundPressure_smul s.k s.parent.c s.parent.density z phi
  · intro s
    unfold BoundarySolution.zeroPhi BoundarySolution.pressure
    dsimp only
    rw [List.map_replicate, soundPressure_zero]

/-! ## Claim C7 — `radiationRatio` is invariant under doubling -/

/-- The `power` accumulator as a list sum. -/
theorem rrPower_eq_sum (s : BoundarySolution) :
    s.rrPower = ((List.range s.aPhi.length).map fun i =>
        AcousticIntensity
          (soundPressure s.k (s.aPhi.getD i 0) s.parent.c s.parent.density)
          (s.aV.getD i 0)).sum := by
  unfold BoundarySolution.rrPower
  exact (foldl_add_eq_sum _ _ 0).trans (zero_add _)

/-- The `bpower` accumulator as a list sum. -/
theorem rrBpower_eq_sum (s : BoundarySolution) :
    s.rrBpower = ((List.range s.aPhi.length).map fun i =>
        s.parent.density * s.parent.c * Cx.normSq (s.aV.getD i 0)).sum := by
  unfold BoundarySolution.rrBpower
  exact (foldl_add_eq_sum _ _ 0).trans (zero_add _)

/-- Doubling potential and velocity multiplies the per-element intensity by
four. -/
theorem intensity_double (k c density : ℚ) (phi v : Cx) :
    AcousticIntensity (soundPressure k ((⟨2, 0⟩ : Cx) * phi) c density)
        ((⟨2, 0⟩ : Cx) * v)
      = 4 * AcousticIntensity (soundPressure k phi c density) v := by
  unfold AcousticIntensity
  rw [soundPressure_smul]
  simp [Cx.conj]
  ring

/-- Doubling a velocity multiplies its squared modulus by four. -/
theorem normSq_double (v : Cx) :
    Cx.normSq ((⟨2, 0⟩ : Cx) * v) = 4 * Cx.normSq v := by
  simp [Cx.normSq]
  ring

/-- C7: on a non-degenerate solution (nonzero blocked power), doubling both
`aPhi` and `aV` leaves `radiationRatio()` unchanged — numerator and
denominator both scale by four. -/
theorem radiationRatio_doubling_invariant (s : BoundarySolution)
    (hb : s.rrBpower ≠ 0) :
    (s.scaleBoth ⟨2, 0⟩).radiationRatio = s.radiationRatio := by
  have hlenPhi : (s.scaleBoth ⟨2, 0⟩).aPhi.length = s.aPhi.length := by
    simp [BoundarySolution.scaleBoth]
  have hlenV : (s.scaleBoth ⟨2, 0⟩).aV.length = s.aV.length := by
    simp [BoundarySolution.scaleBoth]
  have hP : (s.scaleBoth ⟨2, 0⟩).rrPower = 4 * s.rrPower := by
    rw [rrPower_eq_sum, rrPower_eq_sum]
    simp only [BoundarySolution.scaleBoth, List.length_map]
    have hpoint : ∀ i : ℕ,
        AcousticIntensity
          (soundPressure s.k ((s.aPhi.map fun phi => (⟨2, 0⟩ : Cx) * phi).getD i 0)
            s.parent.c s.parent.density)
          ((s.aV.map fun v => (⟨2, 0⟩ : Cx) * v).getD i 0)
        = 4 * AcousticIntensity
            (soundPressure s.k (s.aPhi.getD i 0) s.parent.c s.parent.density)
            (s.aV.getD i 0) := by
      intro i
      rw [getD_map_mul, getD_map_mul, intensity_double]
    simp only [hpoint]
    rw [← List.sum_map_mul_left]
  have hB : (s.scaleBoth ⟨2, 0⟩).rrBpower = 4 * s.rrBpower := by
    rw [rrBpower_eq_sum, rrBpower_eq_sum]
    simp only [BoundarySolution.scaleBoth, List.length_map]
    have hpoint : ∀ i : ℕ,
        s.parent.density * s.parent.c
            * Cx.normSq ((s.aV.map fun v => (⟨2, 0⟩ : Cx) * v).getD i 0)
        = 4 * (s.parent.density * s.parent.c * Cx.normSq (s.aV.getD i 0)) := by
      intro i
      rw [getD_map_mul, normSq_double]
      ring
    simp only [hpoint]
    rw [← List.sum_map_mul_left]
  unfold BoundarySolution.radiationRatio
  rw [hlenPhi, hlenV, hP, hB]
  by_cases hc : s.aV.length < s.aPhi.length
  · rw [if_pos hc, if_pos hc]
  · rw [if_neg hc, if_neg hc]
    by_cases h0 : s.aPhi.length = 0
    · rw [if_pos h0, if_pos h0]
    · rw [if_neg h0, if_neg h0, if_neg (mul_ne_zero (by norm_num) hb), if_neg hb]
      congr 1
      rw [show (2 : ℚ) * (4 * s.rrPower) = 4 * (2 * s.rrPower) by ring,
        mul_div_mul_left _ _ (by norm_num : (4 : ℚ) ≠ 0)]

/-- C7, witness: the doubling invariance applied to the end-to-end
scenario, whose blocked power `2·ρ·c = 830.06` is nonzero. -/
theorem radiationRatio_doubling_invariant_witness :
    (endToEndSolution.scaleBoth ⟨2, 0⟩).radiationRatio
      = endToEndSolution.radiationRatio :=
  radiationRatio_doubling_invariant endToEndSolution (by
    rw [rrBpower_eq_sum]
    norm_num [endToEndSolution, Cx.normSq, List.range_succ, List.getD])

/-! ## Claim C8 — single element, unit area: impedance is pressure over velocity -/

/-- C8: for a one-element solution whose parent reports the unit element
area and whose velocity is nonzero, `mechanicalImpedance()` equals
`pressure()[0] / aV[0]` exactly. -/
theorem mechanicalImpedance_single_unit_area (density c k : ℚ)
    (bc : BoundaryCondition) (phi v : Cx) (hv : v ≠ 0) :
    BoundarySolution.mechanicalImpedance ⟨⟨density, c, [1]⟩, bc, k, [phi], [v]⟩
      = FloatOutcome.val
          ((BoundarySolution.pressure ⟨⟨density, c, [1]⟩, bc, k, [phi], [v]⟩).getD 0 0
            / v) := by
  simp [BoundarySolution.mechanicalImpedance, BoundarySolution.miTriples,
    BoundarySolution.pressure, List.zip, miStep, hv, Cx.ofRat_one, List.getD]

/-- C8, witness: the identity instantiated at a concrete one-element
solution with velocity `1`. -/
theorem mechanicalImpedance_single_unit_area_witness :
    BoundarySolution.mechanicalImpedance ⟨⟨1, 1, [1]⟩, trivialBC, 1, [⟨1, 0⟩], [⟨1, 0⟩]⟩
      = FloatOutcome.val
          ((BoundarySolution.pressure
              ⟨⟨1, 1, [1]⟩, trivialBC, 1, [⟨1, 0⟩], [⟨1, 0⟩]⟩).getD 0 0
            / ⟨1, 0⟩) :=
  mechanicalImpedance_single_unit_area 1 1 1 trivialBC ⟨1, 0⟩ ⟨1, 0⟩ (by
    norm_num [Cx.ext_iff])

/-! ## Claim C9 — container fields have length exactly N -/

/-- C9: for every non-negative size `n`, `BoundaryCondition(n)` yields three
arrays of length exactly `n` and `BoundaryIncidence(n)` yields two. -/
theorem boundaryContainers_field_lengths (n : ℕ) :
    (∃ bc, BoundaryCondition.init (n : ℤ) = Except.ok bc ∧
      bc.alpha.length = n ∧ bc.beta.length = n ∧ bc.f.length = n) ∧
    ∃ bi, BoundaryIncidence.init (n : ℤ) = Except.ok bi ∧
      bi.phi.length = n ∧ bi.v.length = n := by
  have he : npEmpty (n : ℤ) = Except.ok (List.replicate n 0) := by
    rw [npEmpty, if_neg (not_lt.mpr (Int.natCast_nonneg n)), Int.toNat_natCast]
  constructor
  · refine ⟨⟨List.replicate n 0, List.replicate n 0, List.replicate n 0⟩, ?_, ?_, ?_, ?_⟩
    · rw [BoundaryCondition.init, he]
      rfl
    all_goals simp
  · refine ⟨⟨List.replicate n 0, List.replicate n 0⟩, ?_, ?_, ?_⟩
    · rw [BoundaryIncidence.init, he]
      rfl
    all_goals simp

/-! ## Claim C10 — both `__repr__` methods read unassigned attributes -/

/-- C10: `BoundarySolution.__repr__` reads `self.boundaryCondition` while
`__init__` only ever assigns the misspelt `boundaryCondidtion`, and
`SampleSolution.__repr__` reads `self.parent` which its `__init__` never
assigns; each lookup therefore raises `AttributeError` on every instance. -/
theorem repr_reads_unassigned_attributes :
    reprRaisesAttributeError boundarySolutionInitAttrs boundarySolutionReprReads = true ∧
    reprRaisesAttributeError sampleSolutionInitAttrs sampleSolutionReprReads = true ∧
    boundarySolutionInitAttrs.contains "boundaryCondition" = false ∧
    boundarySolutionInitAttrs.contains "boundaryCondidtion" = true ∧
    sampleSolutionInitAttrs.contains "parent" = false := by
  decide
